import Mathlib

/-!
Shallow embedding of the flower-shop Order Engine.

The definitions below are translated from the repository's source:
  - `src/routes/shop.js`   (self-service order placement, own-order lookup)
  - `src/routes/orders.js` (staff-path order creation)
  - `models/index.js`      (Sequelize models: Flower, Customer, Order, OrderItem)

Modelling conventions:
  - JavaScript numbers are modelled as `ℚ` (exact arithmetic); `DECIMAL` and
    `INTEGER` columns are likewise `ℚ` where a non-integer value can reach them
    (SQLite stores such values without rounding).
  - A missing string field is modelled as `""` (JS falsy) or `Option.none`.
  - `Number(raw?.flowerId)` on a missing field yields `NaN`, and `!NaN` is
    `true` exactly like `!0`; a missing `flowerId` is therefore encoded as `0`.
  - The Sequelize transaction is modelled by returning the snapshot database
    on every error path (each error branch of the source calls `t.rollback()`).
  - The `items.flat()` normalisation is modelled by taking the cart already
    flattened (nesting is orthogonal to every claim).
-/

/-- A verified principal as set by the auth middleware: `{id, email, name, role}`.
`""` models a missing field. -/
structure Principal where
  id : Nat
  email : String
  name : String
  role : String
  deriving DecidableEq, Repr

/-- A row of the `flowers` table (`models/index.js`): `price DECIMAL(10,2)`,
`stock INTEGER`, soft-delete flag `isActive`, default scope `isActive = true`. -/
structure Flower where
  id : ℚ
  name : String
  price : ℚ
  stock : ℚ
  isActive : Bool
  deriving DecidableEq, Repr

/-- A row of the `customers` table: unique `email`, soft-delete flag `isActive`,
default scope `isActive = true`. -/
structure Customer where
  id : Nat
  name : String
  email : String
  isActive : Bool
  deriving DecidableEq, Repr

/-- The `extra` object that the self-service handler serialises with
`JSON.stringify` into `Order.notes` (shop.js lines 94-101). -/
structure Extra where
  fulfilment : String
  deliveryAddress : Option String
  deliveryDate : Option String
  contactPhone : String
  giftMessage : Option String
  clientNotes : Option String
  deriving DecidableEq, Repr

/-- Content of the `orders.notes` TEXT column: absent, a plain string (staff
path), or the JSON-serialised `extra` object (self-service path).
`JSON.stringify` is injective on `Extra`, so the structured value is kept. -/
inductive NotesField where
  | missing
  | plain (s : String)
  | extraJson (e : Extra)
  deriving DecidableEq, Repr

/-- A row of the `orders` table. -/
structure OrderRec where
  id : Nat
  customerId : Nat
  status : String
  total : ℚ
  notes : NotesField
  deriving DecidableEq, Repr

/-- A row of the `order_items` table: composite primary key
`(orderId, flowerId)` with a unique index, `price` is the unit price at sale. -/
structure OrderItemRec where
  orderId : Nat
  flowerId : ℚ
  quantity : ℚ
  price : ℚ
  deriving DecidableEq, Repr

/-- The database state: the four tables plus the auto-increment counters. -/
structure DB where
  flowers : List Flower
  customers : List Customer
  orders : List OrderRec
  orderItems : List OrderItemRec
  nextOrderId : Nat
  nextCustomerId : Nat
  deriving DecidableEq, Repr

/-- One raw cart entry after JS numeric coercion
(`Number(raw?.flowerId)`, `Number(raw?.quantity || 0)`);
`flowerId = 0` encodes a missing/falsy flowerId, `quantity = 0` a missing
quantity. -/
structure ReqItem where
  flowerId : ℚ
  quantity : ℚ
  deriving DecidableEq, Repr

/-- The self-service order request body (shop.js lines 68-76).
`contactPhone = ""` models a missing phone. -/
structure Req where
  items : List ReqItem
  fulfilment : Option String
  deliveryAddress : Option String
  deliveryDate : Option String
  contactPhone : String
  giftMessage : Option String
  notes : Option String
  deriving DecidableEq, Repr

/-- Error outcomes of the self-service handler; each corresponds to one
`res.status(400)` exit of shop.js (all of them are 400-class there;
`duplicateLine` is the unique-constraint violation caught by
`isSeqValidation` and surfaced as a 400 validation error). -/
inductive OrderError where
  | itemsRequired
  | contactPhoneRequired
  | noEmail
  | invalidItem
  | flowerUnavailable (flowerId : ℚ)
  | insufficientStock (flowerName : String)
  | duplicateLine
  deriving DecidableEq, Repr

/-- HTTP status of each self-service error (shop.js maps every one to 400). -/
def OrderError.status : OrderError → Nat
  | _ => 400

/-- Result of the self-service handler: a committed order id with the new
database, or an error with the database after rollback. -/
inductive PlaceResult where
  | ok (orderId : Nat) (db : DB)
  | err (e : OrderError) (db : DB)
  deriving DecidableEq, Repr

/-- Whether the handler committed (responded 201). -/
def PlaceResult.isOk : PlaceResult → Bool
  | .ok _ _ => true
  | .err _ _ => false

/-- The database carried by the result (committed state, or rollback state). -/
def PlaceResult.dbOf : PlaceResult → DB
  | .ok _ db => db
  | .err _ db => db

/-- The error carried by a failed result. -/
def PlaceResult.errOf : PlaceResult → Option OrderError
  | .ok _ _ => none
  | .err e _ => some e

/-- `email.split('@')[0]` — the local part of an email address. -/
def localPart (email : String) : String :=
  (email.splitOn "@").headD email

/-- JS `x || null`: an empty string collapses to null. -/
def orNull (s : Option String) : Option String :=
  match s with
  | some "" => none
  | x => x

/-- `flower.update({stock: v})` on the row whose primary key is `fid`. -/
def updateFlowerStock (fls : List Flower) (fid v : ℚ) : List Flower :=
  fls.map fun f => if f.id == fid then { f with stock := v } else f

/-- `customer.update(...)` on the row whose primary key is `c.id`. -/
def updateCustomerRow (cs : List Customer) (c : Customer) : List Customer :=
  cs.map fun x => if x.id == c.id then c else x

/-- `order.update({total: t})` on the row whose primary key is `oid`. -/
def updateOrderTotal (os : List OrderRec) (oid : Nat) (t : ℚ) : List OrderRec :=
  os.map fun o => if o.id == oid then { o with total := t } else o

/-- `getOrCreateCustomerProfile(user, t)` (shop.js lines 31-62):
reject a principal with no email (400); otherwise
`Customer.unscoped().findOrCreate` by email — on create, the name defaults
through `user.name || user.email.split('@')[0]`; when found but soft-deleted,
reactivate the row in place (`isActive: true`, `name: c.name || user.name ||
localPart`). -/
def getOrCreateCustomerProfile (user : Principal) (db : DB) :
    Except OrderError (Customer × DB) :=
  if user.email = "" then .error .noEmail
  else
    match db.customers.find? (fun c => c.email == user.email) with
    | some c =>
        if !c.isActive then
          let c' : Customer :=
            { c with
              isActive := true
              name := if c.name ≠ "" then c.name
                      else if user.name ≠ "" then user.name
                      else localPart user.email }
          .ok (c', { db with customers := updateCustomerRow db.customers c' })
        else .ok (c, db)
    | none =>
        let c : Customer :=
          { id := db.nextCustomerId
            name := if user.name ≠ "" then user.name else localPart user.email
            email := user.email
            isActive := true }
        .ok (c, { db with
                    customers := db.customers ++ [c]
                    nextCustomerId := db.nextCustomerId + 1 })

/-- `Map.set`-style insertion used by the cart normalisation
(`merged.set(fid, (merged.get(fid) || 0) + qty)`): an existing key keeps its
position and accumulates, a new key is appended. -/
def mergeInsert (m : List (ℚ × ℚ)) (fid qty : ℚ) : List (ℚ × ℚ) :=
  match m with
  | [] => [(fid, qty)]
  | (k, v) :: rest =>
      if k == fid then (k, v + qty) :: rest
      else (k, v) :: mergeInsert rest fid qty

/-- The normalisation loop of shop.js lines 112-122: walk the cart, reject the
first entry with a falsy flowerId or quantity < 1, and merge duplicates by
flowerId into an insertion-ordered map. -/
def mergeItems : List ReqItem → List (ℚ × ℚ) → Option (List (ℚ × ℚ))
  | [], acc => some acc
  | r :: rest, acc =>
      if r.flowerId = 0 ∨ r.quantity < 1 then none
      else mergeItems rest (mergeInsert acc r.flowerId r.quantity)

/-- `OrderItem.create`: fails (unique-constraint violation) when a row with
the same composite key `(orderId, flowerId)` already exists. -/
def createOrderItem (it : OrderItemRec) (items : List OrderItemRec) :
    Option (List OrderItemRec) :=
  if items.any (fun x => x.orderId == it.orderId && x.flowerId == it.flowerId)
  then none
  else some (items ++ [it])

/-- The per-item reservation loop of shop.js lines 124-143, over the merged
cart: `Flower.findByPk` (default scope `isActive = true`, no row lock — the
source removed it), availability check, stock check, price snapshot,
`OrderItem.create`, stock decrement; accumulates the running total. -/
def reserveItems (orderId : Nat) :
    List (ℚ × ℚ) → ℚ → DB → Except OrderError (ℚ × DB)
  | [], total, db => .ok (total, db)
  | (flowerId, q) :: rest, total, db =>
      match db.flowers.find? (fun f => f.id == flowerId && f.isActive) with
      | none => .error (.flowerUnavailable flowerId)
      | some flower =>
          if !flower.isActive then .error (.flowerUnavailable flowerId)
          else if flower.stock < q then .error (.insufficientStock flower.name)
          else
            -- price snapshot: `const price = Number(flower.price)`
            match createOrderItem ⟨orderId, flowerId, q, flower.price⟩ db.orderItems with
            | none => .error .duplicateLine
            | some items' =>
                reserveItems orderId rest (total + flower.price * q)
                  { db with
                      orderItems := items'
                      flowers := updateFlowerStock db.flowers flowerId (flower.stock - q) }

/-- The `extra` metadata object built by the handler (shop.js lines 94-101),
including the silent coercion `fulfilment === 'delivery' ? 'delivery' :
'pickup'`. -/
def mkExtra (req : Req) : Extra :=
  { fulfilment := if req.fulfilment = some "delivery" then "delivery" else "pickup"
    deliveryAddress := orNull req.deliveryAddress
    deliveryDate := orNull req.deliveryDate
    contactPhone := req.contactPhone
    giftMessage := orNull req.giftMessage
    clientNotes := orNull req.notes }

/-- The order shell created before the item loop (shop.js lines 103-106). -/
def mkOrderShell (customer : Customer) (req : Req) (oid : Nat) : OrderRec :=
  { id := oid
    customerId := customer.id
    status := "pending"
    total := 0
    notes := .extraJson (mkExtra req) }

/-- `POST /api/v1/shop/orders` (shop.js lines 67-167): validate the cart
shape and phone, then inside one transaction resolve the CRM profile, create
the order shell, normalise and merge the cart, run the reservation loop, set
the total and commit. Every error branch returns the snapshot `db`
(rollback). -/
def placeOrder (user : Principal) (req : Req) (db : DB) : PlaceResult :=
  if req.items = [] then .err .itemsRequired db
  else if req.contactPhone = "" then .err .contactPhoneRequired db
  else
    match getOrCreateCustomerProfile user db with
    | .error e => .err e db
    | .ok (customer, db1) =>
        -- the source creates the order shell before normalising the cart; a
        -- normalisation failure rolls the shell back, so the shell is built
        -- here as part of the state handed to the reservation loop
        match mergeItems req.items [] with
        | none => .err .invalidItem db
        | some merged =>
            match reserveItems db1.nextOrderId merged 0
                { db1 with
                    orders := db1.orders ++ [mkOrderShell customer req db1.nextOrderId]
                    nextOrderId := db1.nextOrderId + 1 } with
            | .error e => .err e db
            | .ok (total, db3) =>
                .ok db1.nextOrderId
                  { db3 with orders := updateOrderTotal db3.orders db1.nextOrderId total }

/-- Error outcomes of the staff-path handler (orders.js). A duplicate line
raises a unique-constraint error that the staff path's generic catch turns
into a 500 `serverError`. -/
inductive StaffError where
  | missingFields
  | invalidCustomer
  | flowerNotFound (flowerId : ℚ)
  | insufficientStock (flowerName : String)
  | serverError
  deriving DecidableEq, Repr

/-- HTTP status of each staff-path error. -/
def StaffError.status : StaffError → Nat
  | .serverError => 500
  | _ => 400

/-- Result of the staff-path handler. -/
inductive StaffResult where
  | ok (orderId : Nat) (db : DB)
  | err (e : StaffError) (db : DB)
  deriving DecidableEq, Repr

/-- HTTP status of a staff-path response (201 on success). -/
def StaffResult.statusOf : StaffResult → Nat
  | .ok _ _ => 201
  | .err e _ => e.status

/-- The per-item loop of the staff path (orders.js lines 94-119): identical
availability check, stock check, price snapshot, `OrderItem.create` and stock
decrement as the self-service loop (the staff path additionally passes
`lock: true`, irrelevant to a sequential run), but with the staff path's
error values. It iterates the raw cart — no merging, no quantity validation. -/
def staffReserveItems (orderId : Nat) :
    List (ℚ × ℚ) → ℚ → DB → Except StaffError (ℚ × DB)
  | [], total, db => .ok (total, db)
  | (flowerId, quantity) :: rest, total, db =>
      match db.flowers.find? (fun f => f.id == flowerId && f.isActive) with
      | none => .error (.flowerNotFound flowerId)
      | some flower =>
          if !flower.isActive then .error (.flowerNotFound flowerId)
          else if flower.stock < quantity then .error (.insufficientStock flower.name)
          else
            -- price snapshot: `const price = Number(flower.price)`
            match createOrderItem ⟨orderId, flowerId, quantity, flower.price⟩ db.orderItems with
            | none => .error .serverError
            | some items' =>
                staffReserveItems orderId rest (total + flower.price * quantity)
                  { db with
                      orderItems := items'
                      flowers := updateFlowerStock db.flowers flowerId (flower.stock - quantity) }

/-- `POST /orders` staff path (orders.js lines 72-138): require `customerId`
and a non-empty `items` array, look the customer up under the default
(active-only) scope, create the order shell with the raw `notes`, run the
item loop over the raw cart, set the total and commit. Every error branch
returns the snapshot `db` (rollback). -/
def staffCreateOrder (customerId : ℚ) (items : List ReqItem)
    (notes : Option String) (db : DB) : StaffResult :=
  if customerId = 0 ∨ items = [] then .err .missingFields db
  else
    match db.customers.find? (fun c => (c.id : ℚ) == customerId && c.isActive) with
    | none => .err .invalidCustomer db
    | some customer =>
        if !customer.isActive then .err .invalidCustomer db
        else
          let order : OrderRec :=
            { id := db.nextOrderId
              customerId := customer.id
              status := "pending"
              total := 0
              notes := match notes with | none => .missing | some s => .plain s }
          let db1 : DB :=
            { db with
                orders := db.orders ++ [order]
                nextOrderId := db.nextOrderId + 1 }
          match staffReserveItems order.id
              (items.map fun r => (r.flowerId, r.quantity)) 0 db1 with
          | .error e => .err e db
          | .ok (total, db2) =>
              .ok order.id
                { db2 with orders := updateOrderTotal db2.orders order.id total }

/-- `GET /api/v1/shop/orders/:id` (shop.js lines 196-219): resolve the CRM
profile by email (unscoped), load the order by primary key, and return 404
unless the order exists and belongs to the requesting customer's profile. -/
def getMyOrder (user : Principal) (id : ℚ) (db : DB) : Nat × Option OrderRec :=
  match db.customers.find? (fun c => c.email == user.email) with
  | none => (404, none)
  | some customer =>
      match db.orders.find? (fun o => (o.id : ℚ) == id) with
      | none => (404, none)
      | some order =>
          if order.customerId ≠ customer.id then (404, none)
          else (200, some order)

/-! ## Concurrency model for the unlocked reservation read

`shop.js` line 125 carries the comment "Removed row lock to behave reliably on
SQLite": the reservation loop reads the flower with a plain
`Flower.findByPk(flowerId, { transaction: t })` and later writes
`flower.update({ stock: flower.stock - q })`, computing the new stock from the
value it read. Two concurrent `placeOrder` calls on the same flower therefore
interleave as read / check-and-write steps over the shared `stock` field, with
nothing preventing both reads from observing the same stock. -/

/-- Program counter of one in-flight reservation of a single-item cart. -/
inductive ResPC where
  | start
  | afterRead
  | done
  deriving DecidableEq, Repr

/-- One in-flight `placeOrder` call reserving quantity `q` of the shared
flower: `readStock` is the value obtained by the unlocked `findByPk`, `ok`
records whether the call committed. -/
structure ResThread where
  q : ℚ
  pc : ResPC
  readStock : ℚ
  ok : Bool
  deriving DecidableEq, Repr

/-- The shared flower stock plus two concurrent reservation calls. -/
structure ConcState where
  stock : ℚ
  t0 : ResThread
  t1 : ResThread
  deriving DecidableEq, Repr

/-- One atomic step of a reservation thread against the shared stock:
`start` performs the unlocked read (`Flower.findByPk`, shop.js line 126);
`afterRead` performs the check `flower.stock < q` and, if it passes, the
write `flower.update({ stock: flower.stock - q })` computed from the value
previously read (shop.js lines 132, 142). -/
def stepThread (stock : ℚ) (th : ResThread) : ℚ × ResThread :=
  match th.pc with
  | .start => (stock, { th with readStock := stock, pc := .afterRead })
  | .afterRead =>
      if th.readStock < th.q then (stock, { th with pc := .done, ok := false })
      else (th.readStock - th.q, { th with pc := .done, ok := true })
  | .done => (stock, th)

/-- Run one step of thread 0 (`false`) or thread 1 (`true`). -/
def stepConc (s : ConcState) (which : Bool) : ConcState :=
  if which then
    let p := stepThread s.stock s.t1
    { s with stock := p.1, t1 := p.2 }
  else
    let p := stepThread s.stock s.t0
    { s with stock := p.1, t0 := p.2 }

/-- Run a whole interleaving schedule. -/
def runSched (s : ConcState) : List Bool → ConcState
  | [] => s
  | b :: rest => runSched (stepConc s b) rest

/-- Initial state for the oversell race: stock `S = 1`, two concurrent calls
each requesting `Q = 1`. -/
def raceInit : ConcState :=
  { stock := 1
    t0 := { q := 1, pc := .start, readStock := 0, ok := false }
    t1 := { q := 1, pc := .start, readStock := 0, ok := false } }

/-- C2: with stock `S = 1` and two concurrent calls each requesting `Q = 1`,
the unlocked read-then-write reservation of shop.js admits the interleaving
read₀, read₁, write₀, write₁ in which BOTH calls succeed (the claim demands
exactly `floor(1/1) = 1` success) and the final stock is `1 - 1 = 0` instead
of `S - Q·succeeded = -1`: the second decrement is lost, selling two units
from a stock of one. -/
theorem oversell_race_both_succeed :
    (runSched raceInit [false, true, false, true]).t0.ok = true ∧
    (runSched raceInit [false, true, false, true]).t1.ok = true ∧
    (runSched raceInit [false, true, false, true]).stock = 0 := by
  norm_num [runSched, raceInit, stepConc, stepThread]

/-! ## C1 — atomicity of the self-service transaction -/

/-- C1: every `placeOrder` call that fails — cart-shape validation, phone
validation, profile resolution, per-entry validation, availability or stock
checking at any item of the merged cart — has no durable effect: the database
returned with the error is exactly the snapshot taken before the call, so
every flower keeps its original stock and no OrderItem rows for the order
survive. -/
theorem placeOrder_rolls_back_on_failure (user : Principal) (req : Req)
    (db : DB) (e : OrderError) (db' : DB)
    (h : placeOrder user req db = .err e db') :
    db' = db ∧ db'.flowers = db.flowers ∧ db'.orderItems = db.orderItems := by
  have hdb : db' = db := by
    unfold placeOrder at h
    split at h
    · injection h with h1 h2
      exact h2.symm
    · split at h
      · injection h with h1 h2
        exact h2.symm
      · split at h
        · injection h with h1 h2
          exact h2.symm
        · split at h
          · injection h with h1 h2
            exact h2.symm
          · split at h
            · injection h with h1 h2
              exact h2.symm
            · exact PlaceResult.noConfusion h
  exact ⟨hdb, by rw [hdb], by rw [hdb]⟩

/-- Sample catalog with two active flowers and no other rows. -/
def dbTwoFlowers : DB :=
  { flowers := [⟨1, "Rose", 5, 10, true⟩, ⟨2, "Tulip", 3, 3, true⟩]
    customers := []
    orders := []
    orderItems := []
    nextOrderId := 1
    nextCustomerId := 1 }

/-- Sample customer principal. -/
def amy : Principal := ⟨7, "amy@shop.test", "Amy", "customer"⟩

/-- A cart whose first item would be reserved and whose second item fails the
stock check (requests 5 Tulips out of a stock of 3). -/
def reqFailAt2 : Req := ⟨[⟨1, 1⟩, ⟨2, 5⟩], none, none, none, "555-0100", none, none⟩

/-- Witness for C1 at a concrete input: the call fails at the second merged
item with InsufficientStock and the database comes back unchanged. -/
theorem placeOrder_rolls_back_on_failure_witness :
    placeOrder amy reqFailAt2 dbTwoFlowers =
      .err (.insufficientStock "Tulip") dbTwoFlowers ∧
    dbTwoFlowers = dbTwoFlowers :=
  have hEval : placeOrder amy reqFailAt2 dbTwoFlowers =
      .err (.insufficientStock "Tulip") dbTwoFlowers := by
    with_unfolding_all decide
  ⟨hEval,
    (placeOrder_rolls_back_on_failure amy reqFailAt2 dbTwoFlowers _ _ hEval).1⟩

/-! ## C3 — order total equals the sum of its line items -/

/-- `sum(item.quantity * item.unitPriceAtSale)` over a list of order items. -/
def lineSum (items : List OrderItemRec) : ℚ :=
  items.foldr (fun it acc => it.quantity * it.price + acc) 0

/-- The OrderItem rows belonging to order `oid`. -/
def itemsOf (db : DB) (oid : Nat) : List OrderItemRec :=
  db.orderItems.filter (fun it => it.orderId == oid)

/-- `Order.findByPk oid`. -/
def findOrder (db : DB) (oid : Nat) : Option OrderRec :=
  db.orders.find? (fun o => o.id == oid)

theorem lineSum_cons (a : OrderItemRec) (l : List OrderItemRec) :
    lineSum (a :: l) = a.quantity * a.price + lineSum l := rfl

theorem find?_append_of_not {α} (p : α → Bool) (l₁ l₂ : List α)
    (h : ∀ a ∈ l₁, p a = false) : (l₁ ++ l₂).find? p = l₂.find? p := by
  induction l₁ with
  | nil => rfl
  | cons a l ih =>
      have ha := h a (List.mem_cons_self a l)
      simp only [List.cons_append, List.find?_cons, ha]
      exact ih fun x hx => h x (List.mem_cons_of_mem a hx)

theorem filter_eq_nil_of_not {α} (p : α → Bool) (l : List α)
    (h : ∀ a ∈ l, p a = false) : l.filter p = [] := by
  induction l with
  | nil => rfl
  | cons a l ih =>
      have ha := h a (List.mem_cons_self a l)
      simp only [List.filter_cons, ha, Bool.false_eq_true, if_false]
      exact ih fun x hx => h x (List.mem_cons_of_mem a hx)

theorem filter_eq_self_of_all {α} (p : α → Bool) (l : List α)
    (h : ∀ a ∈ l, p a = true) : l.filter p = l := by
  induction l with
  | nil => rfl
  | cons a l ih =>
      have ha := h a (List.mem_cons_self a l)
      simp only [List.filter_cons, ha, if_true]
      exact congrArg (a :: ·) (ih fun x hx => h x (List.mem_cons_of_mem a hx))

/-- Profile resolution touches only the customers table and the customer
counter: flowers, orders, order items and the order counter are unchanged. -/
theorem getOrCreate_preserves (user : Principal) (db : DB) (c : Customer)
    (db1 : DB) (h : getOrCreateCustomerProfile user db = .ok (c, db1)) :
    db1.flowers = db.flowers ∧ db1.orders = db.orders ∧
    db1.orderItems = db.orderItems ∧ db1.nextOrderId = db.nextOrderId := by
  unfold getOrCreateCustomerProfile at h
  split at h
  · exact Except.noConfusion h
  · split at h
    · split at h
      · simp only [Except.ok.injEq, Prod.mk.injEq] at h
        obtain ⟨-, hdb⟩ := h
        subst hdb
        exact ⟨rfl, rfl, rfl, rfl⟩
      · simp only [Except.ok.injEq, Prod.mk.injEq] at h
        obtain ⟨-, hdb⟩ := h
        subst hdb
        exact ⟨rfl, rfl, rfl, rfl⟩
    · simp only [Except.ok.injEq, Prod.mk.injEq] at h
      obtain ⟨-, hdb⟩ := h
      subst hdb
      exact ⟨rfl, rfl, rfl, rfl⟩

/-- What a successful reservation loop does to the database: it appends one
batch of new rows to `orderItems`, all for this order, the returned total is
the accumulator plus `quantity * price` summed over exactly those rows, and
no other table moves. -/
theorem reserveItems_spec (oid : Nat) :
    ∀ (entries : List (ℚ × ℚ)) (total t : ℚ) (db db' : DB),
      reserveItems oid entries total db = .ok (t, db') →
      ∃ news : List OrderItemRec,
        db'.orderItems = db.orderItems ++ news ∧
        (∀ it ∈ news, it.orderId = oid) ∧
        t = total + lineSum news ∧
        db'.orders = db.orders ∧
        db'.customers = db.customers ∧
        db'.nextOrderId = db.nextOrderId := by
  intro entries
  induction entries with
  | nil =>
      intro total t db db' h
      unfold reserveItems at h
      simp only [Except.ok.injEq, Prod.mk.injEq] at h
      obtain ⟨ht, hdb⟩ := h
      subst hdb
      exact ⟨[], by simp, by simp, by simp [lineSum, ht], rfl, rfl, rfl⟩
  | cons e rest ih =>
      obtain ⟨fid, q⟩ := e
      intro total t db db' h
      unfold reserveItems at h
      cases hfind : db.flowers.find? (fun f => f.id == fid && f.isActive) with
      | none =>
          simp only [hfind] at h
          exact Except.noConfusion h
      | some flower =>
          simp only [hfind] at h
          by_cases hact : (!flower.isActive) = true
          · rw [if_pos hact] at h
            exact Except.noConfusion h
          · rw [if_neg hact] at h
            by_cases hstock : flower.stock < q
            · rw [if_pos hstock] at h
              exact Except.noConfusion h
            · rw [if_neg hstock] at h
              cases hcreate : createOrderItem ⟨oid, fid, q, flower.price⟩ db.orderItems with
              | none =>
                  simp only [hcreate] at h
                  exact Except.noConfusion h
              | some items' =>
                  simp only [hcreate] at h
                  obtain ⟨news, hitems, hoid, ht, hords, hcust, hnext⟩ := ih _ _ _ _ h
                  dsimp only at hitems hords hcust hnext
                  unfold createOrderItem at hcreate
                  split at hcreate
                  · exact Option.noConfusion hcreate
                  · injection hcreate with hcreate
                    refine ⟨⟨oid, fid, q, flower.price⟩ :: news, ?_, ?_, ?_, ?_, ?_, ?_⟩
                    · rw [hitems, ← hcreate]
                      simp
                    · intro it hit
                      rcases List.mem_cons.mp hit with h1 | h1
                      · rw [h1]
                      · exact hoid it h1
                    · rw [ht, lineSum_cons]
                      ring
                    · exact hords
                    · exact hcust
                    · exact hnext

/-- C3: for every order committed by the self-service `placeOrder`, the
stored `order.total` equals exactly the sum over its OrderItem rows of
`quantity * unitPriceAtSale` (the price snapshot taken from the flower's
catalog price at reservation time); arithmetic is modelled exactly over `ℚ`.
The freshness hypotheses say the auto-increment counter has not been reused
by existing rows. -/
theorem committed_total_is_item_sum (user : Principal) (req : Req) (db : DB)
    (oid : Nat) (db' : DB)
    (hfreshI : ∀ it ∈ db.orderItems, it.orderId ≠ db.nextOrderId)
    (hfreshO : ∀ o ∈ db.orders, o.id ≠ db.nextOrderId)
    (h : placeOrder user req db = .ok oid db') :
    ∃ o, findOrder db' oid = some o ∧ o.total = lineSum (itemsOf db' oid) := by
  unfold placeOrder at h
  split at h
  · exact PlaceResult.noConfusion h
  · split at h
    · exact PlaceResult.noConfusion h
    · split at h
      · exact PlaceResult.noConfusion h
      · next customer db1 hprof =>
          split at h
          · exact PlaceResult.noConfusion h
          · next merged hmerge =>
              split at h
              · exact PlaceResult.noConfusion h
              · next total db3 hres =>
                  obtain ⟨hfl, hord, hoi, hnext⟩ :=
                    getOrCreate_preserves user db customer db1 hprof
                  injection h with hid hdb
                  subst hid
                  subst hdb
                  obtain ⟨news, hitems, hnoid, ht, hords, -, -⟩ :=
                    reserveItems_spec db1.nextOrderId merged 0 total _ db3 hres
                  dsimp only at hitems hords
                  refine ⟨{ mkOrderShell customer req db1.nextOrderId with total := total },
                    ?_, ?_⟩
                  · unfold findOrder
                    dsimp only
                    rw [hords, hord]
                    unfold updateOrderTotal
                    rw [List.map_append]
                    rw [find?_append_of_not]
                    · simp [mkOrderShell]
                    · intro a ha
                      obtain ⟨o, ho, rfl⟩ := List.mem_map.mp ha
                      have hne : o.id ≠ db1.nextOrderId := by
                        rw [hnext]
                        exact hfreshO o ho
                      have hbeq : (o.id == db1.nextOrderId) = false := by
                        simpa using hne
                      simp [hbeq]
                  · unfold itemsOf
                    dsimp only
                    rw [hitems, hoi, List.filter_append]
                    rw [filter_eq_nil_of_not _ _ (fun it hit => by
                      have hne : it.orderId ≠ db1.nextOrderId := by
                        rw [hnext]
                        exact hfreshI it hit
                      simpa using hne)]
                    rw [filter_eq_self_of_all _ _ (fun it hit => by
                      simpa using hnoid it hit)]
                    simpa using ht

/-- A valid two-line cart (2 Roses, 1 Tulip) for the sample catalog. -/
def reqDeliver : Req :=
  ⟨[⟨1, 2⟩, ⟨2, 1⟩], some "delivery", some "12 Main St", none, "555-0100", none, none⟩

/-- Witness for C3 at a concrete input: the committed order's stored total
equals the sum of its line items. -/
theorem committed_total_is_item_sum_witness :
    placeOrder amy reqDeliver dbTwoFlowers =
      .ok 1 (placeOrder amy reqDeliver dbTwoFlowers).dbOf ∧
    ∃ o, findOrder (placeOrder amy reqDeliver dbTwoFlowers).dbOf 1 = some o ∧
      o.total = lineSum (itemsOf (placeOrder amy reqDeliver dbTwoFlowers).dbOf 1) :=
  ⟨by with_unfolding_all decide,
    committed_total_is_item_sum amy reqDeliver dbTwoFlowers 1 _
      (by decide) (by decide) (by with_unfolding_all decide)⟩

/-! ## C4 — duplicate cart lines merge into one reservation -/

/-- Profile resolution succeeds for every principal with a non-empty email. -/
theorem getOrCreate_isOk (user : Principal) (db : DB) (hemail : user.email ≠ "") :
    ∃ c db1, getOrCreateCustomerProfile user db = .ok (c, db1) := by
  unfold getOrCreateCustomerProfile
  rw [if_neg hemail]
  cases hfind : db.customers.find? (fun c => c.email == user.email) with
  | none =>
      exact ⟨_, _, rfl⟩
  | some c =>
      dsimp only
      by_cases hact : (!c.isActive) = true
      · rw [if_pos hact]
        exact ⟨_, _, rfl⟩
      · rw [if_neg hact]
        exact ⟨_, _, rfl⟩

/-- Normalising a two-entry cart that names the same flower twice yields one
merged entry with the summed quantity. -/
theorem mergeItems_pair (f q1 q2 : ℚ) (hf : f ≠ 0) (hq1 : 1 ≤ q1) (hq2 : 1 ≤ q2) :
    mergeItems [⟨f, q1⟩, ⟨f, q2⟩] [] = some [(f, q1 + q2)] := by
  simp only [mergeItems, mergeInsert]
  rw [if_neg (not_or.mpr ⟨hf, not_lt.mpr hq1⟩)]
  rw [if_neg (not_or.mpr ⟨hf, not_lt.mpr hq2⟩)]
  simp

/-- Running the reservation loop on a single merged entry: one OrderItem row
appended, one stock decrement, total `price * q`. -/
theorem reserveItems_single (oid : Nat) (fid q : ℚ) (db : DB) (fl : Flower)
    (hfind : db.flowers.find? (fun x => x.id == fid && x.isActive) = some fl)
    (hstock : ¬fl.stock < q)
    (hany : (db.orderItems.any fun x => x.orderId == oid && x.flowerId == fid) = false) :
    reserveItems oid [(fid, q)] 0 db = .ok (0 + fl.price * q,
      { db with
          orderItems := db.orderItems ++ [⟨oid, fid, q, fl.price⟩]
          flowers := updateFlowerStock db.flowers fid (fl.stock - q) }) := by
  have hact : fl.isActive = true := by
    have hp := List.find?_some hfind
    simp only [Bool.and_eq_true] at hp
    exact hp.2
  unfold reserveItems
  simp only [hfind]
  rw [if_neg (by simp [hact])]
  rw [if_neg hstock]
  simp only [createOrderItem]
  rw [if_neg (by simp only [hany]; exact Bool.false_ne_true)]
  simp only [reserveItems]

/-- C4: a self-service cart listing the same flower twice is merged before any
stock check: on success it produces exactly one OrderItem row carrying the
combined quantity `q1 + q2`, and a single stock decrement by `q1 + q2` on that
flower — never two rows or two decrements. -/
theorem duplicate_cart_one_row (user : Principal) (req : Req) (db : DB)
    (f q1 q2 : ℚ) (fl : Flower)
    (hemail : user.email ≠ "")
    (hphone : req.contactPhone ≠ "")
    (hitems : req.items = [⟨f, q1⟩, ⟨f, q2⟩])
    (hf : f ≠ 0) (hq1 : 1 ≤ q1) (hq2 : 1 ≤ q2)
    (hfind : db.flowers.find? (fun x => x.id == f && x.isActive) = some fl)
    (hstock : q1 + q2 ≤ fl.stock)
    (hfreshI : ∀ it ∈ db.orderItems, it.orderId ≠ db.nextOrderId) :
    ∃ db', placeOrder user req db = .ok db.nextOrderId db' ∧
      itemsOf db' db.nextOrderId = [⟨db.nextOrderId, f, q1 + q2, fl.price⟩] ∧
      db'.flowers = updateFlowerStock db.flowers f (fl.stock - (q1 + q2)) := by
  obtain ⟨cst, db1, hprof⟩ := getOrCreate_isOk user db hemail
  obtain ⟨hfl1, hord1, hoi1, hnext1⟩ := getOrCreate_preserves user db cst db1 hprof
  have hany : ({ db1 with
      orders := db1.orders ++ [mkOrderShell cst req db1.nextOrderId]
      nextOrderId := db1.nextOrderId + 1 } : DB).orderItems.any
        (fun x => x.orderId == db1.nextOrderId && x.flowerId == f) = false := by
    dsimp only
    rw [hoi1, hnext1]
    refine List.any_eq_false.mpr fun x hx => ?_
    have hne := hfreshI x hx
    simp [hne]
  have hfind2 : ({ db1 with
      orders := db1.orders ++ [mkOrderShell cst req db1.nextOrderId]
      nextOrderId := db1.nextOrderId + 1 } : DB).flowers.find?
        (fun x => x.id == f && x.isActive) = some fl := by
    dsimp only
    rw [hfl1]
    exact hfind
  have hres := reserveItems_single db1.nextOrderId f (q1 + q2)
    { db1 with
        orders := db1.orders ++ [mkOrderShell cst req db1.nextOrderId]
        nextOrderId := db1.nextOrderId + 1 }
    fl hfind2 (not_lt.mpr hstock) hany
  refine ⟨{ flowers := updateFlowerStock db1.flowers f (fl.stock - (q1 + q2))
            customers := db1.customers
            orders := updateOrderTotal
              (db1.orders ++ [mkOrderShell cst req db1.nextOrderId])
              db1.nextOrderId (0 + fl.price * (q1 + q2))
            orderItems := db1.orderItems ++ [⟨db1.nextOrderId, f, q1 + q2, fl.price⟩]
            nextOrderId := db1.nextOrderId + 1
            nextCustomerId := db1.nextCustomerId }, ?_, ?_, ?_⟩
  · unfold placeOrder
    rw [hitems]
    rw [if_neg (by simp)]
    rw [if_neg hphone]
    simp only [hprof, mergeItems_pair f q1 q2 hf hq1 hq2, hres]
    rw [hnext1]
  · unfold itemsOf
    dsimp only
    rw [hoi1, hnext1]
    rw [List.filter_append]
    rw [filter_eq_nil_of_not _ _ (fun it hit => by
      simpa using hfreshI it hit)]
    rw [filter_eq_self_of_all _ _ (fun it hit => by
      rcases List.mem_singleton.mp hit with rfl
      simp)]
    simp
  · rw [hfl1]

/-- A cart listing flower 1 twice: quantities 2 and 3. -/
def reqDup : Req := ⟨[⟨1, 2⟩, ⟨1, 3⟩], none, none, none, "555-0100", none, none⟩

/-- Witness for C4 at a concrete input: the duplicate cart
`[{flowerId:1,qty:2},{flowerId:1,qty:3}]` yields exactly one OrderItem with
quantity `2 + 3 = 5` and a single stock decrement on the Rose. -/
theorem duplicate_cart_one_row_witness :
    ∃ db', placeOrder amy reqDup dbTwoFlowers = .ok dbTwoFlowers.nextOrderId db' ∧
      itemsOf db' dbTwoFlowers.nextOrderId =
        [⟨dbTwoFlowers.nextOrderId, 1, 2 + 3, (5 : ℚ)⟩] ∧
      db'.flowers = updateFlowerStock dbTwoFlowers.flowers 1 ((10 : ℚ) - (2 + 3)) :=
  duplicate_cart_one_row amy reqDup dbTwoFlowers 1 2 3 ⟨1, "Rose", 5, 10, true⟩
    (by with_unfolding_all decide) (by with_unfolding_all decide) rfl
    (by with_unfolding_all decide) (by with_unfolding_all decide)
    (by with_unfolding_all decide) (by with_unfolding_all decide)
    (by with_unfolding_all decide) (by with_unfolding_all decide)

/-! ## C5 — staff path versus self-service path -/

/-- Sample database with one active customer profile and the two flowers. -/
def dbC5 : DB :=
  { flowers := [⟨1, "Rose", 5, 10, true⟩, ⟨2, "Tulip", 3, 3, true⟩]
    customers := [⟨1, "Amy", "amy@shop.test", true⟩]
    orders := []
    orderItems := []
    nextOrderId := 1
    nextCustomerId := 2 }

/-- C5 counterexample: on the duplicate-flower cart
`[{flowerId:1,qty:2},{flowerId:1,qty:3}]` the two paths do NOT run the same
algorithm. The staff path (orders.js) iterates the raw cart without merging,
so its second `OrderItem.create` hits the `(orderId, flowerId)` unique
constraint and the generic catch rolls back with a 500; the self-service path
(shop.js) merges first and commits a single row with quantity 5. -/
theorem staff_path_not_identical :
    staffCreateOrder 1 [⟨1, 2⟩, ⟨1, 3⟩] none dbC5 = .err .serverError dbC5 ∧
    (placeOrder amy reqDup dbC5).isOk = true ∧
    itemsOf (placeOrder amy reqDup dbC5).dbOf 1 = [⟨1, 1, 5, (5 : ℚ)⟩] := by
  refine ⟨?_, ?_, ?_⟩ <;> with_unfolding_all decide

/-- `Map.set` on a key absent from the accumulator appends the pair. -/
theorem mergeInsert_of_newKey (acc : List (ℚ × ℚ)) (fid q : ℚ)
    (h : ∀ kv ∈ acc, kv.1 ≠ fid) :
    mergeInsert acc fid q = acc ++ [(fid, q)] := by
  induction acc with
  | nil => rfl
  | cons kv rest ih =>
      obtain ⟨k, v⟩ := kv
      unfold mergeInsert
      rw [if_neg (by simpa using h (k, v) (List.mem_cons_self _ _))]
      rw [ih fun x hx => h x (List.mem_cons_of_mem _ hx)]
      simp

/-- On a cart whose entries are all valid and name pairwise-distinct flowers,
normalisation is the identity embedding of the cart into the merged map. -/
theorem mergeItems_of_distinct (cart : List ReqItem) :
    ∀ acc : List (ℚ × ℚ),
      (∀ rit ∈ cart, rit.flowerId ≠ 0 ∧ 1 ≤ rit.quantity) →
      cart.Pairwise (fun a b => a.flowerId ≠ b.flowerId) →
      (∀ kv ∈ acc, ∀ rit ∈ cart, kv.1 ≠ rit.flowerId) →
      mergeItems cart acc =
        some (acc ++ cart.map fun rit => (rit.flowerId, rit.quantity)) := by
  induction cart with
  | nil =>
      intro acc _ _ _
      simp [mergeItems]
  | cons rit rest ih =>
      intro acc hvalid hpw hdisj
      obtain ⟨hfid, hq⟩ := hvalid rit (List.mem_cons_self _ _)
      unfold mergeItems
      rw [if_neg (not_or.mpr ⟨hfid, not_lt.mpr hq⟩)]
      rw [mergeInsert_of_newKey acc rit.flowerId rit.quantity
        (fun kv hkv => hdisj kv hkv rit (List.mem_cons_self _ _))]
      rw [ih (acc ++ [(rit.flowerId, rit.quantity)])
        (fun x hx => hvalid x (List.mem_cons_of_mem _ hx))
        (List.pairwise_cons.mp hpw).2
        (fun kv hkv x hx => by
          rcases List.mem_append.mp hkv with h1 | h1
          · exact hdisj kv h1 x (List.mem_cons_of_mem _ hx)
          · rcases List.mem_singleton.mp h1 with rfl
            exact (List.pairwise_cons.mp hpw).1 x hx)]
      simp

/-- C5 (amended): the staff path runs the same per-item reservation steps as
the self-service path — for every order id, entry list, accumulator and
database the two loops succeed on exactly the same results (same OrderItems,
same stock decrements, same total); and on a cart of valid, pairwise-distinct
flowerIds the self-service normalisation is the identity, so the two paths
coincide there. They diverge only where the counterexample shows: the staff
path neither merges duplicate flowerIds (duplicates die on the unique
constraint with a 500) nor validates per-entry quantity ≥ 1. -/
theorem staff_reserve_algorithm_equiv :
    (∀ (oid : Nat) (entries : List (ℚ × ℚ)) (total : ℚ) (db : DB) (r : ℚ × DB),
        staffReserveItems oid entries total db = .ok r ↔
        reserveItems oid entries total db = .ok r) ∧
    (∀ cart : List ReqItem,
        (∀ rit ∈ cart, rit.flowerId ≠ 0 ∧ 1 ≤ rit.quantity) →
        cart.Pairwise (fun a b => a.flowerId ≠ b.flowerId) →
        mergeItems cart [] = some (cart.map fun rit => (rit.flowerId, rit.quantity))) := by
  constructor
  · intro oid entries
    induction entries with
    | nil =>
        intro total db r
        simp [staffReserveItems, reserveItems]
    | cons e rest ih =>
        obtain ⟨fid, q⟩ := e
        intro total db r
        unfold staffReserveItems reserveItems
        cases hfind : db.flowers.find? (fun f => f.id == fid && f.isActive) with
        | none => simp
        | some flower =>
            dsimp only
            by_cases hact : (!flower.isActive) = true
            · rw [if_pos hact, if_pos hact]
              simp
            · rw [if_neg hact, if_neg hact]
              by_cases hstock : flower.stock < q
              · rw [if_pos hstock, if_pos hstock]
                simp
              · rw [if_neg hstock, if_neg hstock]
                cases hcreate : createOrderItem ⟨oid, fid, q, flower.price⟩ db.orderItems with
                | none => simp
                | some items' =>
                    dsimp only
                    exact ih _ _ _
  · intro cart hvalid hpw
    have h := mergeItems_of_distinct cart [] hvalid hpw (by simp)
    simpa using h

/-- Witness for C5 at a concrete input: a valid distinct two-line cart
satisfies the hypotheses and normalisation embeds it unchanged. -/
theorem staff_reserve_algorithm_equiv_witness :
    (∀ rit ∈ [(⟨1, 2⟩ : ReqItem), ⟨2, 1⟩], rit.flowerId ≠ 0 ∧ 1 ≤ rit.quantity) ∧
    mergeItems [⟨1, 2⟩, ⟨2, 1⟩] [] =
      some ([(⟨1, 2⟩ : ReqItem), ⟨2, 1⟩].map fun rit => (rit.flowerId, rit.quantity)) :=
  ⟨by with_unfolding_all decide,
    staff_reserve_algorithm_equiv.2 [⟨1, 2⟩, ⟨2, 1⟩]
      (by with_unfolding_all decide) (by with_unfolding_all decide)⟩

/-! ## C6 — cart validation -/

/-- C6 counterexample: a NON-integer quantity of 3/2 passes the `qty < 1`
check (shop.js line 116 checks only `!fid || qty < 1`), is merged, reserved
and committed: the order succeeds and stores an OrderItem with quantity 3/2
instead of being rejected with a validation error. -/
theorem nonintegral_quantity_accepted :
    (placeOrder amy ⟨[⟨1, 3/2⟩], none, none, none, "555-0100", none, none⟩
        dbTwoFlowers).isOk = true ∧
    itemsOf (placeOrder amy ⟨[⟨1, 3/2⟩], none, none, none, "555-0100", none, none⟩
        dbTwoFlowers).dbOf 1 = [⟨1, 1, 3/2, (5 : ℚ)⟩] := by
  refine ⟨?_, ?_⟩ <;> with_unfolding_all decide

/-- A cart containing any entry with a falsy flowerId or a quantity below 1
fails normalisation regardless of the accumulator. -/
theorem mergeItems_none_of_invalid :
    ∀ (cart : List ReqItem) (acc : List (ℚ × ℚ)),
      (∃ rit ∈ cart, rit.flowerId = 0 ∨ rit.quantity < 1) →
      mergeItems cart acc = none := by
  intro cart
  induction cart with
  | nil =>
      intro acc h
      exact absurd h (by simp)
  | cons r rest ih =>
      intro acc h
      unfold mergeItems
      by_cases hbad : r.flowerId = 0 ∨ r.quantity < 1
      · rw [if_pos hbad]
      · rw [if_neg hbad]
        refine ih _ ?_
        rcases h with ⟨x, hx, hbadx⟩
        rcases List.mem_cons.mp hx with h1 | hx'
        · exact absurd (h1 ▸ hbadx) hbad
        · exact ⟨x, hx', hbadx⟩

/-- C6 (amended): `placeOrder` rejects, with a 400-class error and the
database unchanged, an empty cart, a missing contactPhone, and any cart
entry whose flowerId is missing/falsy or whose quantity is below 1 (zero or
negative). A non-integer quantity at or above 1 is NOT rejected (see the
counterexample). -/
theorem cart_validation (user : Principal) (req : Req) (db : DB) :
    (req.items = [] → placeOrder user req db = .err .itemsRequired db) ∧
    (req.items ≠ [] → req.contactPhone = "" →
        placeOrder user req db = .err .contactPhoneRequired db) ∧
    (req.items ≠ [] → req.contactPhone ≠ "" → user.email ≠ "" →
        (∃ rit ∈ req.items, rit.flowerId = 0 ∨ rit.quantity < 1) →
        placeOrder user req db = .err .invalidItem db) := by
  refine ⟨?_, ?_, ?_⟩
  · intro h
    unfold placeOrder
    rw [if_pos h]
  · intro h1 h2
    unfold placeOrder
    rw [if_neg h1, if_pos h2]
  · intro h1 h2 h3 h4
    unfold placeOrder
    rw [if_neg h1, if_neg h2]
    obtain ⟨c, db1, hprof⟩ := getOrCreate_isOk user db h3
    simp only [hprof, mergeItems_none_of_invalid req.items [] h4]

/-- Witness for C6 at concrete inputs: empty cart, missing phone, and zero
quantity are each rejected with the database unchanged. -/
theorem cart_validation_witness :
    placeOrder amy ⟨[], none, none, none, "555", none, none⟩ dbTwoFlowers =
      .err .itemsRequired dbTwoFlowers ∧
    placeOrder amy ⟨[⟨1, 1⟩], none, none, none, "", none, none⟩ dbTwoFlowers =
      .err .contactPhoneRequired dbTwoFlowers ∧
    placeOrder amy ⟨[⟨1, 0⟩], none, none, none, "555", none, none⟩ dbTwoFlowers =
      .err .invalidItem dbTwoFlowers :=
  ⟨(cart_validation amy ⟨[], none, none, none, "555", none, none⟩ dbTwoFlowers).1 rfl,
   (cart_validation amy ⟨[⟨1, 1⟩], none, none, none, "", none, none⟩ dbTwoFlowers).2.1
     (by with_unfolding_all decide) rfl,
   (cart_validation amy ⟨[⟨1, 0⟩], none, none, none, "555", none, none⟩ dbTwoFlowers).2.2
     (by with_unfolding_all decide) (by with_unfolding_all decide)
     (by with_unfolding_all decide) (by with_unfolding_all decide)⟩

/-! ## C7 — profile find-or-create-or-reactivate -/

/-- When the rows matching `p` are exactly `[c]`, the first match is `c`. -/
theorem find?_of_filter_singleton {α} (p : α → Bool) (l : List α) (c : α)
    (h : l.filter p = [c]) : l.find? p = some c := by
  induction l with
  | nil => simp at h
  | cons a rest ih =>
      by_cases hp : p a
      · rw [List.filter_cons_of_pos hp] at h
        injection h with h1 h2
        rw [List.find?_cons_of_pos _ hp, h1]
      · rw [List.filter_cons_of_neg hp] at h
        rw [List.find?_cons_of_neg _ hp]
        exact ih h

/-- Updating in place the single row matching `p` (rows have pairwise
distinct ids) leaves exactly the updated row matching `p`. -/
theorem filter_updateCustomerRow (p : Customer → Bool) :
    ∀ (cs : List Customer) (c c' : Customer),
      cs.Pairwise (fun a b => a.id ≠ b.id) →
      cs.filter p = [c] →
      c'.id = c.id →
      p c' = true →
      (updateCustomerRow cs c').filter p = [c'] := by
  intro cs
  induction cs with
  | nil =>
      intro c c' _ hfilter _ _
      simp at hfilter
  | cons a rest ih =>
      intro c c' hids hfilter hid hp
      obtain ⟨hhead, htail⟩ := List.pairwise_cons.mp hids
      unfold updateCustomerRow
      rw [List.map_cons]
      by_cases hpa : p a
      · rw [List.filter_cons_of_pos hpa] at hfilter
        injection hfilter with h1 h2
        subst h1
        have hcond : (a.id == c'.id) = true := by simp [hid]
        rw [if_pos hcond]
        rw [List.filter_cons_of_pos hp]
        have hrest : (rest.map fun x => if x.id == c'.id then c' else x).filter p = [] := by
          apply filter_eq_nil_of_not
          intro x hx
          obtain ⟨y, hy, rfl⟩ := List.mem_map.mp hx
          have hne : (y.id == c'.id) = false := by
            rw [hid]
            simpa using Ne.symm (hhead y hy)
          simp only [hne, Bool.false_eq_true, if_false]
          have := List.filter_eq_nil_iff.mp h2 y hy
          simpa using this
        rw [hrest]
      · rw [List.filter_cons_of_neg hpa] at hfilter
        have hcmem : c ∈ rest := by
          have hm : c ∈ rest.filter p := by
            rw [hfilter]
            exact List.mem_singleton_self c
          exact List.mem_of_mem_filter hm
        have hane : (a.id == c'.id) = false := by
          rw [hid]
          simpa using hhead c hcmem
        simp only [hane, Bool.false_eq_true, if_false]
        rw [List.filter_cons_of_neg hpa]
        exact ih c c' htail hfilter hid hp

/-- C7: profile find-or-create-or-reactivate keeps `email` a key. First
conjunct (reactivation): when exactly one profile row carries the principal's
email and it is soft-deleted, the operation reactivates that row in place —
afterwards exactly one row carries the email, it is active, and it has the
same id (no duplicate row). Second conjunct (creation): when no row carries
the email, one active row is created, with `name` defaulting to the local
part of the email when the principal supplies none. -/
theorem profile_reactivation :
    (∀ (user : Principal) (db : DB) (c : Customer),
        user.email ≠ "" →
        db.customers.Pairwise (fun a b => a.id ≠ b.id) →
        db.customers.filter (fun x => x.email == user.email) = [c] →
        c.isActive = false →
        ∃ c' db1, getOrCreateCustomerProfile user db = .ok (c', db1) ∧
          c'.id = c.id ∧ c'.isActive = true ∧
          db1.customers.filter (fun x => x.email == user.email) = [c']) ∧
    (∀ (user : Principal) (db : DB),
        user.email ≠ "" → user.name = "" →
        db.customers.filter (fun x => x.email == user.email) = [] →
        ∃ c' db1, getOrCreateCustomerProfile user db = .ok (c', db1) ∧
          c'.name = localPart user.email ∧ c'.email = user.email ∧
          c'.isActive = true ∧
          db1.customers.filter (fun x => x.email == user.email) = [c']) := by
  constructor
  · intro user db c hemail hids hfilter hinact
    have hfind : db.customers.find? (fun x => x.email == user.email) = some c :=
      find?_of_filter_singleton _ _ _ hfilter
    have hp := List.find?_some hfind
    unfold getOrCreateCustomerProfile
    rw [if_neg hemail]
    simp only [hfind]
    rw [if_pos (by simp [hinact])]
    exact ⟨_, _, rfl, rfl, rfl,
      filter_updateCustomerRow _ db.customers c _ hids hfilter rfl hp⟩
  · intro user db hemail hname hfilter
    have hfind : db.customers.find? (fun x => x.email == user.email) = none := by
      rw [List.find?_eq_none]
      intro x hx
      have := List.filter_eq_nil_iff.mp hfilter x hx
      simpa using this
    unfold getOrCreateCustomerProfile
    rw [if_neg hemail]
    simp only [hfind]
    refine ⟨_, _, rfl, ?_, rfl, rfl, ?_⟩
    · simp [hname]
    · dsimp only
      rw [List.filter_append, hfilter]
      simp

/-- Database holding one soft-deleted profile for Amy's email. -/
def inactiveAmyDb : DB :=
  { flowers := []
    customers := [⟨1, "Amy", "amy@shop.test", false⟩]
    orders := []
    orderItems := []
    nextOrderId := 1
    nextCustomerId := 2 }

/-- Witness for C7 at a concrete input: the soft-deleted profile is
reactivated in place, leaving exactly one (active) row for the email. -/
theorem profile_reactivation_witness :
    ∃ c' db1, getOrCreateCustomerProfile amy inactiveAmyDb = .ok (c', db1) ∧
      c'.id = 1 ∧ c'.isActive = true ∧
      db1.customers.filter (fun x => x.email == amy.email) = [c'] :=
  profile_reactivation.1 amy inactiveAmyDb ⟨1, "Amy", "amy@shop.test", false⟩
    (by with_unfolding_all decide) (by with_unfolding_all decide)
    (by with_unfolding_all decide) (by with_unfolding_all decide)

/-! ## C8 — the InsufficientStock payload -/

/-- Catalog A: Rose is flower 1 with stock 10. -/
def dbRoseA : DB :=
  { flowers := [⟨1, "Rose", 4, 10, true⟩]
    customers := []
    orders := []
    orderItems := []
    nextOrderId := 1
    nextCustomerId := 1 }

/-- Catalog B: a different Rose — flower 2 with stock 5. -/
def dbRoseB : DB :=
  { flowers := [⟨2, "Rose", 7, 5, true⟩]
    customers := []
    orders := []
    orderItems := []
    nextOrderId := 1
    nextCustomerId := 1 }

/-- C8 counterexample: two insufficient-stock failures with different
flowerId (1 vs 2), different available stock (10 vs 5) and different
requested quantity (20 vs 7) return LITERALLY the same error payload — the
400 body is only `msg: "Insufficient stock for Rose"` (shop.js line 135) —
so the payload cannot include the flowerId, the available stock or the
requested quantity; those values go only to the logger. -/
theorem insufficient_stock_payload_lossy :
    (placeOrder amy ⟨[⟨1, 20⟩], none, none, none, "555", none, none⟩ dbRoseA).errOf =
      some (.insufficientStock "Rose") ∧
    (placeOrder amy ⟨[⟨2, 7⟩], none, none, none, "555", none, none⟩ dbRoseB).errOf =
      some (.insufficientStock "Rose") := by
  refine ⟨?_, ?_⟩ <;> with_unfolding_all decide

/-- The reservation loop on a single entry whose quantity exceeds stock
signals InsufficientStock carrying only the flower's name. -/
theorem reserveItems_single_insufficient (oid : Nat) (fid q : ℚ) (db : DB)
    (fl : Flower)
    (hfind : db.flowers.find? (fun x => x.id == fid && x.isActive) = some fl)
    (hstock : fl.stock < q) :
    reserveItems oid [(fid, q)] 0 db = .error (.insufficientStock fl.name) := by
  have hact : fl.isActive = true := by
    have hp := List.find?_some hfind
    simp only [Bool.and_eq_true] at hp
    exact hp.2
  unfold reserveItems
  simp only [hfind]
  rw [if_neg (by simp [hact])]
  rw [if_pos hstock]

/-- C8 (amended): when the requested quantity exceeds the available stock,
`placeOrder` fails with a 400 error whose payload carries only the message
naming the flower (`Insufficient stock for <name>`), and the database is
returned unchanged; flowerId, available and requested appear in the log
call, not in the response payload (shown by the counterexample). -/
theorem insufficient_stock_error (user : Principal) (req : Req) (db : DB)
    (fid q : ℚ) (fl : Flower)
    (hemail : user.email ≠ "")
    (hphone : req.contactPhone ≠ "")
    (hitems : req.items = [⟨fid, q⟩])
    (hfid : fid ≠ 0) (hq : 1 ≤ q)
    (hfind : db.flowers.find? (fun x => x.id == fid && x.isActive) = some fl)
    (hstock : fl.stock < q) :
    placeOrder user req db = .err (.insufficientStock fl.name) db ∧
    (OrderError.insufficientStock fl.name).status = 400 := by
  obtain ⟨cst, db1, hprof⟩ := getOrCreate_isOk user db hemail
  obtain ⟨hfl1, hord1, hoi1, hnext1⟩ := getOrCreate_preserves user db cst db1 hprof
  have hmerge : mergeItems [⟨fid, q⟩] [] = some [(fid, q)] := by
    unfold mergeItems
    rw [if_neg (not_or.mpr ⟨hfid, not_lt.mpr hq⟩)]
    rfl
  have hfind2 : ({ db1 with
      orders := db1.orders ++ [mkOrderShell cst req db1.nextOrderId]
      nextOrderId := db1.nextOrderId + 1 } : DB).flowers.find?
        (fun x => x.id == fid && x.isActive) = some fl := by
    dsimp only
    rw [hfl1]
    exact hfind
  have hres := reserveItems_single_insufficient db1.nextOrderId fid q
    { db1 with
        orders := db1.orders ++ [mkOrderShell cst req db1.nextOrderId]
        nextOrderId := db1.nextOrderId + 1 }
    fl hfind2 hstock
  constructor
  · unfold placeOrder
    rw [hitems]
    rw [if_neg (by simp)]
    rw [if_neg hphone]
    simp only [hprof, hmerge, hres]
  · rfl

/-- Witness for C8 at a concrete input: requesting 5 Tulips against a stock
of 3 yields exactly `.err (.insufficientStock "Tulip")` with no state change. -/
theorem insufficient_stock_error_witness :
    placeOrder amy ⟨[⟨2, 5⟩], none, none, none, "555", none, none⟩ dbTwoFlowers =
      .err (.insufficientStock "Tulip") dbTwoFlowers ∧
    (OrderError.insufficientStock "Tulip").status = 400 :=
  insufficient_stock_error amy ⟨[⟨2, 5⟩], none, none, none, "555", none, none⟩
    dbTwoFlowers 2 5 ⟨2, "Tulip", 3, 3, true⟩
    (by with_unfolding_all decide) (by with_unfolding_all decide) rfl
    (by with_unfolding_all decide) (by with_unfolding_all decide)
    (by with_unfolding_all decide) (by with_unfolding_all decide)

/-! ## C9 — fulfilment mode handling -/

/-- The fulfilment string stored in an order's serialised notes, if any. -/
def storedFulfilment (db : DB) (oid : Nat) : Option String :=
  match findOrder db oid with
  | some o =>
      match o.notes with
      | .extraJson e => some e.fulfilment
      | _ => none
  | none => none

/-- C9 counterexample: a fulfilment value outside {pickup, delivery}
("teleport") is NOT rejected as a validation error: shop.js line 86 silently
coerces every value other than "delivery" to "pickup", and the order
commits with fulfilment "pickup". -/
theorem fulfilment_not_validated :
    (placeOrder amy ⟨[⟨1, 1⟩], some "teleport", none, none, "555", none, none⟩
        dbTwoFlowers).isOk = true ∧
    storedFulfilment
      (placeOrder amy ⟨[⟨1, 1⟩], some "teleport", none, none, "555", none, none⟩
        dbTwoFlowers).dbOf 1 = some "pickup" := by
  refine ⟨?_, ?_⟩ <;> with_unfolding_all decide

/-- C9 (amended): `placeOrder` never rejects a request for its fulfilment
value. On success the stored fulfilment is "delivery" exactly when the
request said "delivery", and "pickup" in every other case — including an
omitted field (the documented default) and any out-of-set value (silently
coerced, not rejected). -/
theorem fulfilment_stored (user : Principal) (req : Req) (db : DB)
    (oid : Nat) (db' : DB)
    (hfreshO : ∀ o ∈ db.orders, o.id ≠ db.nextOrderId)
    (h : placeOrder user req db = .ok oid db') :
    storedFulfilment db' oid =
      some (if req.fulfilment = some "delivery" then "delivery" else "pickup") := by
  unfold placeOrder at h
  split at h
  · exact PlaceResult.noConfusion h
  · split at h
    · exact PlaceResult.noConfusion h
    · split at h
      · exact PlaceResult.noConfusion h
      · next customer db1 hprof =>
          split at h
          · exact PlaceResult.noConfusion h
          · next merged hmerge =>
              split at h
              · exact PlaceResult.noConfusion h
              · next total db3 hres =>
                  obtain ⟨hfl, hord, hoi, hnext⟩ :=
                    getOrCreate_preserves user db customer db1 hprof
                  injection h with hid hdb
                  subst hid
                  subst hdb
                  obtain ⟨-, -, -, -, hords, -, -⟩ :=
                    reserveItems_spec db1.nextOrderId merged 0 total _ db3 hres
                  dsimp only at hords
                  unfold storedFulfilment findOrder
                  dsimp only
                  rw [hords, hord]
                  unfold updateOrderTotal
                  rw [List.map_append]
                  rw [find?_append_of_not]
                  · simp [mkOrderShell, mkExtra]
                  · intro a ha
                    obtain ⟨o, ho, rfl⟩ := List.mem_map.mp ha
                    have hne : o.id ≠ db1.nextOrderId := by
                      rw [hnext]
                      exact hfreshO o ho
                    have hbeq : (o.id == db1.nextOrderId) = false := by
                      simpa using hne
                    simp [hbeq]

/-- Witness for C9 at a concrete input: a committed delivery order stores the
coerced fulfilment value. -/
theorem fulfilment_stored_witness :
    storedFulfilment (placeOrder amy reqDeliver dbTwoFlowers).dbOf 1 =
      some (if reqDeliver.fulfilment = some "delivery" then "delivery" else "pickup") :=
  fulfilment_stored amy reqDeliver dbTwoFlowers 1 _
    (by decide) (by with_unfolding_all decide)

/-! ## C10 — own-order-only lookup -/

/-- C10: the self-service single-order lookup `GET /shop/orders/:id` returns
404 whenever the requesting customer has no CRM profile, whenever the order
does not exist, or whenever the order's `customerId` differs from the
requester's profile id — the order body is returned only to its owner. -/
theorem own_order_only (user : Principal) (id : ℚ) (db : DB) :
    (db.customers.find? (fun c => c.email == user.email) = none →
        getMyOrder user id db = (404, none)) ∧
    (∀ cust order,
        db.customers.find? (fun c => c.email == user.email) = some cust →
        db.orders.find? (fun o => (o.id : ℚ) == id) = some order →
        order.customerId ≠ cust.id →
        getMyOrder user id db = (404, none)) ∧
    (∀ cust order,
        db.customers.find? (fun c => c.email == user.email) = some cust →
        db.orders.find? (fun o => (o.id : ℚ) == id) = some order →
        order.customerId = cust.id →
        getMyOrder user id db = (200, some order)) := by
  refine ⟨?_, ?_, ?_⟩
  · intro hnone
    unfold getMyOrder
    simp only [hnone]
  · intro cust order hc ho hne
    unfold getMyOrder
    simp only [hc, ho]
    rw [if_pos hne]
  · intro cust order hc ho heq
    unfold getMyOrder
    simp only [hc, ho]
    rw [if_neg (by simp [heq])]

/-- Two customer profiles and one order owned by Bob (customerId 2). -/
def dbOrders : DB :=
  { flowers := []
    customers := [⟨1, "Amy", "amy@shop.test", true⟩, ⟨2, "Bob", "bob@shop.test", true⟩]
    orders := [⟨1, 2, "pending", 0, .missing⟩]
    orderItems := []
    nextOrderId := 2
    nextCustomerId := 3 }

/-- Witness for C10 at concrete inputs: Amy gets 404 for Bob's order; Bob
gets his own order. -/
theorem own_order_only_witness :
    getMyOrder amy 1 dbOrders = (404, none) ∧
    getMyOrder ⟨8, "bob@shop.test", "Bob", "customer"⟩ 1 dbOrders =
      (200, some ⟨1, 2, "pending", 0, .missing⟩) :=
  ⟨(own_order_only amy 1 dbOrders).2.1
      ⟨1, "Amy", "amy@shop.test", true⟩ ⟨1, 2, "pending", 0, .missing⟩
      (by with_unfolding_all decide) (by with_unfolding_all decide)
      (by with_unfolding_all decide),
   (own_order_only ⟨8, "bob@shop.test", "Bob", "customer"⟩ 1 dbOrders).2.2
      ⟨2, "Bob", "bob@shop.test", true⟩ ⟨1, 2, "pending", 0, .missing⟩
      (by with_unfolding_all decide) (by with_unfolding_all decide)
      (by with_unfolding_all decide)⟩
